import Mathlib

/-!
Verification of `rev_comp.py`, a module that validates DNA sequences and
computes reverse complements.  The Python functions are shallowly embedded:
dynamically typed arguments become the inductive `PyValue`, raised
exceptions become the `Except PyError` monad, Python dicts become
association lists, and Python's `str.upper` on the characters that matter
here (ASCII letters) is `Char.toUpper`.
-/

/-- A Python runtime value, restricted to the types exercised by the module:
the sequence argument may be any value, and `_validate_type` inspects
`type(x).__name__`. -/
inductive PyValue where
  | str (s : String)
  | int (n : Int)
  | float
  | bool (b : Bool)
  | none
deriving DecidableEq

/-- Python's `type(x).__name__` for the embedded values. -/
def typeName : PyValue → String
  | .str _ => "str"
  | .int _ => "int"
  | .float => "float"
  | .bool _ => "bool"
  | .none => "NoneType"

/-- The exceptions the module can raise: the builtin `ValueError`
(from `get_valid_bases`), the module's own `DnaSequenceError`, each
carrying its message, and the builtin `KeyError` a dict subscript could
raise. -/
inductive PyError where
  | valueError (message : String)
  | dnaSequenceError (message : String)
  | keyError
deriving DecidableEq

/-- `get_valid_bases` returns either a list of bases or a dict of base
complements depending on its selector; a Python dict of single-character
keys and values is embedded as an association list. -/
inductive BasesResult where
  | bases (l : List Char)
  | complements (m : List (Char × Char))
deriving DecidableEq

/-- Embedding of `get_valid_bases` (rev_comp.py lines 56-96).  The default
argument mirrors `return_values="bases_only"`; `dict(zip(valid_bases,
valid_bases[::-1]))` is the zip of the base list with its reverse. -/
def get_valid_bases (return_values : String := "bases_only") :
    Except PyError BasesResult :=
  let valid_bases : List Char := ['A', 'G', 'C', 'T']
  if return_values = "bases_only" then
    .ok (.bases valid_bases)
  else if return_values = "base_complements" then
    .ok (.complements (valid_bases.zip valid_bases.reverse))
  else
    .error (.valueError
      ("return_values must be either 'bases_only' or " ++ "'base_complements'"))

/-- Embedding of `_validate_base` (rev_comp.py lines 98-133).  The source
tests `base.upper() not in get_valid_bases()`; the call uses the default
selector, whose result is always the base list. -/
def _validate_base (base : Char) (position : Nat) : Except PyError Unit :=
  match get_valid_bases with
  | .ok (.bases valid_bases) =>
      if base.toUpper ∈ valid_bases then .ok ()
      else
        .error (.dnaSequenceError
          ("invalid base '" ++ String.singleton base ++ "' found at " ++
           "sequence position " ++ toString position))
  | _ => .error .keyError

/-- Embedding of `_validate_type` (rev_comp.py lines 135-162). -/
def _validate_type (dna_sequence : PyValue) : Except PyError Unit :=
  let sequence_type := typeName dna_sequence
  if sequence_type ≠ "str" then
    .error (.dnaSequenceError
      ("invalid sequence type (" ++ sequence_type ++ ")"))
  else .ok ()

/-- The `for base in dna_sequence` loop of `validate_dna_sequence`
(rev_comp.py lines 197-200): `position` is incremented before each
`_validate_base` call, starting from the given accumulator. -/
def validateBases : List Char → Nat → Except PyError Unit
  | [], _ => .ok ()
  | base :: rest, position => do
      _validate_base base (position + 1)
      validateBases rest (position + 1)

/-- Embedding of `validate_dna_sequence` (rev_comp.py lines 164-200): the
type check runs first and its failure propagates before any base is
examined; then the bases are scanned left to right from position 1.
The non-string branch of the match is unreachable: `_validate_type` has
already raised. -/
def validate_dna_sequence (dna_sequence : PyValue) : Except PyError Unit := do
  _validate_type dna_sequence
  match dna_sequence with
  | .str s => validateBases s.data 0
  | _ => .ok ()

/-- Python dict subscript on an association list: the value at the first
matching key. -/
def dictGet (m : List (Char × Char)) (k : Char) : Option Char :=
  (m.find? (fun p => p.1 = k)).map (fun p => p.2)

/-- The generator expression `complements[base.upper()] for base in
dna_sequence[::-1]` of `get_reverse_complement` (rev_comp.py line 241),
applied to an already-reversed character list; a missing key raises
`KeyError` as the Python subscript would. -/
def mapComplements (complements : List (Char × Char)) :
    List Char → Except PyError (List Char)
  | [] => .ok []
  | base :: rest =>
      match dictGet complements base.toUpper with
      | some c => do
          let cs ← mapComplements complements rest
          .ok (c :: cs)
      | Option.none => .error .keyError

/-- Embedding of `get_reverse_complement` (rev_comp.py lines 203-241):
fetch the complement dict, validate the sequence (propagating any
failure), then join the complements of the reversed sequence. -/
def get_reverse_complement (dna_sequence : PyValue) : Except PyError String := do
  let complements ←
    match get_valid_bases "base_complements" with
    | .ok (.complements m) => pure m
    | .ok (.bases _) => .error .keyError
    | .error e => .error e
  validate_dna_sequence dna_sequence
  match dna_sequence with
  | .str s => do
      let cs ← mapComplements complements s.data.reverse
      .ok (String.mk cs)
  | _ => .ok ""

/-! ### Specification-side definitions -/

/-- The four valid bases, uppercase, in the canonical order the spec lists
them. -/
def validBaseChars : List Char := ['A', 'G', 'C', 'T']

/-- A valid DNA sequence: every character is, case-insensitively, one of
the four bases. -/
def ValidSeq (s : String) : Prop := ∀ c ∈ s.data, c.toUpper ∈ validBaseChars

instance (s : String) : Decidable (ValidSeq s) := by
  unfold ValidSeq; infer_instance

/-- The Watson-Crick complement of an uppercase base, as the spec words it
(A-T and G-C swapped); other characters are left unchanged. -/
def wcComplement : Char → Char
  | 'A' => 'T'
  | 'T' => 'A'
  | 'G' => 'C'
  | 'C' => 'G'
  | c => c

/-- Python's `str.upper` on the strings at play (base characters):
uppercase every character. -/
def pyUpperStr (s : String) : String := String.mk (s.data.map Char.toUpper)

/-- The reverse complement as the spec describes it: reverse the input,
uppercase each character, replace each base by its Watson-Crick
complement. -/
def revCompSpec (s : String) : String :=
  String.mk (s.data.reverse.map (fun c => wcComplement c.toUpper))

/-! ### The exception class hierarchy

`rev_comp.py` defines `class Error(Exception)` and
`class DnaSequenceError(Error)`; `ValueError` and `KeyError` are Python
builtins deriving from `Exception` (the `LookupError` step above
`KeyError` is elided, no claim concerns it). -/

/-- The exception classes in play. -/
inductive ExcClass where
  | exception
  | error
  | dnaSequenceError
  | valueError
  | keyError
deriving DecidableEq, Fintype

/-- The direct superclass of each exception class, per the `class`
statements of the module and Python's builtin hierarchy. -/
def superclass : ExcClass → Option ExcClass
  | .exception => Option.none
  | .error => some .exception
  | .dnaSequenceError => some .error
  | .valueError => some .exception
  | .keyError => some .exception

/-- The superclass chain starting at a class, with fuel bounding its
length. -/
def ancestorChain : Nat → ExcClass → List ExcClass
  | 0, c => [c]
  | n + 1, c =>
      c :: (match superclass c with
            | some d => ancestorChain n d
            | Option.none => [])

/-- All ancestors of a class, itself included (the hierarchy has depth at
most 3). -/
def ancestors (c : ExcClass) : List ExcClass := ancestorChain 4 c

/-- Python's `issubclass`. -/
def isSubclass (c d : ExcClass) : Bool := d ∈ ancestors c

/-- Whether a class is one the module itself defines (its domain error
category), rather than a Python builtin. -/
def moduleDefined : ExcClass → Bool
  | .error => true
  | .dnaSequenceError => true
  | _ => false

/-- The class of a raised exception value. -/
def errClass : PyError → ExcClass
  | .valueError _ => .valueError
  | .dnaSequenceError _ => .dnaSequenceError
  | .keyError => .keyError

/-! ### Helper lemmas -/

/-- `_validate_base` unfolded: the default `get_valid_bases()` call always
yields the base list. -/
theorem validate_base_eq (base : Char) (position : Nat) :
    _validate_base base position =
      if base.toUpper ∈ validBaseChars then .ok ()
      else .error (.dnaSequenceError
        ("invalid base '" ++ String.singleton base ++
         "' found at sequence position " ++ toString position)) := rfl

/-- The validation loop succeeds on a list of valid characters. -/
theorem validateBases_ok (l : List Char) (p : Nat)
    (h : ∀ c ∈ l, c.toUpper ∈ validBaseChars) :
    validateBases l p = .ok () := by
  induction l generalizing p with
  | nil => rfl
  | cons base rest ih =>
      have hb : base.toUpper ∈ validBaseChars := h base (List.mem_cons_self _ _)
      rw [validateBases]
      rw [validate_base_eq, if_pos hb]
      exact ih (p + 1) (fun c hc => h c (List.mem_cons_of_mem _ hc))

/-- The validation loop succeeds only on a list of valid characters. -/
theorem validateBases_ok_iff (l : List Char) (p : Nat) :
    validateBases l p = .ok () ↔ ∀ c ∈ l, c.toUpper ∈ validBaseChars := by
  constructor
  · intro h
    induction l generalizing p with
    | nil => intro c hc; cases hc
    | cons base rest ih =>
        rw [validateBases, validate_base_eq] at h
        by_cases hb : base.toUpper ∈ validBaseChars
        · rw [if_pos hb] at h
          intro c hc
          rcases List.mem_cons.mp hc with rfl | hc
          · exact hb
          · exact ih (p + 1) h c hc
        · rw [if_neg hb] at h
          simp [Bind.bind, Except.bind] at h
  · exact validateBases_ok l p

/-- The validation loop fails at the first invalid character, reporting it
and its 1-based position offset by the starting accumulator. -/
theorem validateBases_first_invalid (l : List Char) (p i : Nat)
    (h : i < l.length)
    (hvalid : ∀ j, ∀ hj : j < l.length, j < i →
      (l.get ⟨j, hj⟩).toUpper ∈ validBaseChars)
    (hbad : (l.get ⟨i, h⟩).toUpper ∉ validBaseChars) :
    validateBases l p = .error (.dnaSequenceError
      ("invalid base '" ++ String.singleton (l.get ⟨i, h⟩) ++
       "' found at sequence position " ++ toString (p + i + 1))) := by
  induction l generalizing p i with
  | nil => cases h
  | cons base rest ih =>
      cases i with
      | zero =>
          have hbad' : base.toUpper ∉ validBaseChars := hbad
          rw [validateBases, validate_base_eq, if_neg hbad']
          rfl
      | succ j =>
          have hb : base.toUpper ∈ validBaseChars :=
            hvalid 0 (Nat.succ_pos _) (Nat.succ_pos j)
          rw [validateBases, validate_base_eq, if_pos hb]
          have hj : j < rest.length := Nat.lt_of_succ_lt_succ h
          have hrec := ih (p + 1) j hj
            (fun k hk hki =>
              hvalid (k + 1) (Nat.succ_lt_succ hk) (Nat.succ_lt_succ hki))
            hbad
          have harith : p + (j + 1) + 1 = p + 1 + j + 1 := by omega
          rw [harith]
          exact hrec

/-- A non-string input makes `validate_dna_sequence` fail with the type
error, regardless of content. -/
theorem validate_type_error (v : PyValue) (h : typeName v ≠ "str") :
    validate_dna_sequence v =
      .error (.dnaSequenceError
        ("invalid sequence type (" ++ typeName v ++ ")")) := by
  cases v <;> simp_all [validate_dna_sequence, _validate_type, typeName,
    Bind.bind, Except.bind]

/-- On a string, `validate_dna_sequence` is exactly the base-scanning
loop started at position 0. -/
theorem validate_str (s : String) :
    validate_dna_sequence (.str s) = validateBases s.data 0 := by
  have h : _validate_type (.str s) = .ok () := rfl
  simp [validate_dna_sequence, h, Bind.bind, Except.bind]

/-- `validate_dna_sequence` succeeds on a string exactly when every
character is valid. -/
theorem validate_ok_iff (s : String) :
    validate_dna_sequence (.str s) = .ok () ↔ ValidSeq s := by
  rw [validate_str]
  exact validateBases_ok_iff s.data 0

/-- The dict `get_valid_bases "base_complements"` returns, as a literal
association list. -/
theorem base_complements_eq :
    get_valid_bases "base_complements" =
      .ok (.complements [('A', 'T'), ('G', 'C'), ('C', 'G'), ('T', 'A')]) := rfl

/-- Looking a valid uppercase base up in the complement dict gives its
Watson-Crick complement. -/
theorem dictGet_complements (c : Char) (h : c.toUpper ∈ validBaseChars) :
    dictGet [('A', 'T'), ('G', 'C'), ('C', 'G'), ('T', 'A')] c.toUpper =
      some (wcComplement c.toUpper) := by
  simp only [validBaseChars, List.mem_cons, List.not_mem_nil, or_false] at h
  rcases h with h | h | h | h <;> rw [h] <;> rfl

/-- The complement generator succeeds on a list of valid characters and
computes the per-character Watson-Crick complement of the uppercased
character. -/
theorem mapComplements_valid (l : List Char)
    (h : ∀ c ∈ l, c.toUpper ∈ validBaseChars) :
    mapComplements [('A', 'T'), ('G', 'C'), ('C', 'G'), ('T', 'A')] l =
      .ok (l.map (fun c => wcComplement c.toUpper)) := by
  induction l with
  | nil => rfl
  | cons base rest ih =>
      have hb := dictGet_complements base (h base (List.mem_cons_self _ _))
      rw [mapComplements, hb]
      rw [ih (fun c hc => h c (List.mem_cons_of_mem _ hc))]
      rfl

/-- On a valid sequence, `get_reverse_complement` computes exactly the
reverse complement the spec describes. -/
theorem grc_valid (s : String) (h : ValidSeq s) :
    get_reverse_complement (.str s) = .ok (revCompSpec s) := by
  have hval : validate_dna_sequence (.str s) = .ok () :=
    (validate_ok_iff s).mpr h
  have hrev : ∀ c ∈ s.data.reverse, c.toUpper ∈ validBaseChars :=
    fun c hc => h c (List.mem_reverse.mp hc)
  have hmap := mapComplements_valid s.data.reverse hrev
  simp [get_reverse_complement, base_complements_eq, hval, hmap,
    revCompSpec, Bind.bind, Except.bind, Pure.pure, Except.pure]

/-- Character-level facts about complementing a valid character: the
complement of its uppercase form is again an uppercase valid base, and
complementing twice returns the uppercase original. -/
theorem wc_char_props (c : Char) (h : c.toUpper ∈ validBaseChars) :
    wcComplement c.toUpper ∈ validBaseChars ∧
    (wcComplement c.toUpper).toUpper = wcComplement c.toUpper ∧
    wcComplement ((wcComplement c.toUpper).toUpper) = c.toUpper := by
  simp only [validBaseChars, List.mem_cons, List.not_mem_nil, or_false] at h
  rcases h with h | h | h | h <;> rw [h] <;> refine ⟨by decide, by decide, by decide⟩

/-- `get_reverse_complement` with its complement-dict fetch already
reduced to the literal association list. -/
theorem grc_unfold (v : PyValue) :
    get_reverse_complement v =
      (do
        validate_dna_sequence v
        match v with
        | .str s => do
            let cs ← mapComplements
              [('A', 'T'), ('G', 'C'), ('C', 'G'), ('T', 'A')] s.data.reverse
            .ok (String.mk cs)
        | _ => .ok "") := rfl

/-- Any validation failure propagates unchanged through
`get_reverse_complement`. -/
theorem grc_error (v : PyValue) (e : PyError)
    (h : validate_dna_sequence v = .error e) :
    get_reverse_complement v = .error e := by
  rw [grc_unfold, h]
  rfl

/-- The reverse complement of a valid sequence is itself a valid
sequence, all uppercase. -/
theorem validSeq_revCompSpec (s : String) (h : ValidSeq s) :
    ValidSeq (revCompSpec s) := by
  intro c hc
  rcases List.mem_map.mp hc with ⟨d, hd, rfl⟩
  have props := wc_char_props d (h d (List.mem_reverse.mp hd))
  rw [props.2.1]
  exact props.1

/-- Every character of the spec-side reverse complement of a valid
sequence is an uppercase valid base. -/
theorem revCompSpec_chars (s : String) (h : ValidSeq s) :
    ∀ c ∈ (revCompSpec s).data, c ∈ validBaseChars := by
  intro c hc
  rcases List.mem_map.mp hc with ⟨d, hd, rfl⟩
  exact (wc_char_props d (h d (List.mem_reverse.mp hd))).1

/-- The spec-side reverse complement preserves length. -/
theorem revCompSpec_length (s : String) :
    (revCompSpec s).length = s.length := by
  show (s.data.reverse.map (fun c => wcComplement c.toUpper)).length =
    s.data.length
  rw [List.length_map, List.length_reverse]

/-- Reverse-complementing twice gives back the uppercased original. -/
theorem revCompSpec_double (s : String) (h : ValidSeq s) :
    revCompSpec (revCompSpec s) = pyUpperStr s := by
  unfold revCompSpec pyUpperStr
  apply congrArg String.mk
  show ((s.data.reverse.map (fun c => wcComplement c.toUpper)).reverse).map
      (fun c => wcComplement c.toUpper) = s.data.map Char.toUpper
  rw [← List.map_reverse, List.reverse_reverse, List.map_map]
  refine List.map_congr_left (fun c hc => ?_)
  exact (wc_char_props c (h c hc)).2.2

/-- The spec-side reverse complement depends only on the uppercased
input. -/
theorem revCompSpec_congr (s t : String) (h : pyUpperStr s = pyUpperStr t) :
    revCompSpec s = revCompSpec t := by
  have hdata : s.data.map Char.toUpper = t.data.map Char.toUpper :=
    congrArg String.data h
  have key : ∀ l : List Char,
      l.reverse.map (fun c => wcComplement c.toUpper) =
        ((l.map Char.toUpper).reverse).map wcComplement := by
    intro l
    rw [← List.map_reverse, List.map_map]
    rfl
  unfold revCompSpec
  apply congrArg String.mk
  rw [key, key, hdata]

/-! ### Claim theorems -/

/-- C1: for every input string whose characters are all, case-insensitively,
in A, G, C, T, `get_reverse_complement` returns the string obtained by
reversing the input, uppercasing each character, and replacing each base
by its Watson-Crick complement; concretely "AGCT" maps to "AGCT", "AAAA"
to "TTTT", and "GGCC" to "GGCC". -/
theorem C1_reverse_complement_correct :
    (∀ s : String, ValidSeq s →
      get_reverse_complement (.str s) = .ok (revCompSpec s)) ∧
    get_reverse_complement (.str "AGCT") = .ok "AGCT" ∧
    get_reverse_complement (.str "AAAA") = .ok "TTTT" ∧
    get_reverse_complement (.str "GGCC") = .ok "GGCC" :=
  ⟨grc_valid, by rfl, by rfl, by rfl⟩

/-- Witness for C1 at the concrete valid input "AAAA". -/
theorem C1_witness :
    get_reverse_complement (.str "AAAA") = .ok (revCompSpec "AAAA") :=
  C1_reverse_complement_correct.1 "AAAA" (by decide)

/-- C2: `validate_dna_sequence` checks the type first, failing with a type
error naming the actual type; on a string it scans left to right with a
1-based counter and fails with the first invalid base, reporting the
character in its original case and its 1-based position; it succeeds
exactly when every character is valid. -/
theorem C2_validate_dna_sequence_behaviour :
    (∀ v : PyValue, typeName v ≠ "str" →
      validate_dna_sequence v = .error (.dnaSequenceError
        ("invalid sequence type (" ++ typeName v ++ ")"))) ∧
    (∀ s : String, ∀ i : Nat, ∀ h : i < s.data.length,
      (∀ j, ∀ hj : j < s.data.length, j < i →
        (s.data.get ⟨j, hj⟩).toUpper ∈ validBaseChars) →
      (s.data.get ⟨i, h⟩).toUpper ∉ validBaseChars →
      validate_dna_sequence (.str s) = .error (.dnaSequenceError
        ("invalid base '" ++ String.singleton (s.data.get ⟨i, h⟩) ++
         "' found at sequence position " ++ toString (i + 1)))) ∧
    (∀ s : String, validate_dna_sequence (.str s) = .ok () ↔ ValidSeq s) := by
  refine ⟨validate_type_error, ?_, validate_ok_iff⟩
  intro s i h hvalid hbad
  rw [validate_str]
  have hfirst := validateBases_first_invalid s.data 0 i h hvalid hbad
  simpa using hfirst

/-- Witness for C2 at the concrete non-string input 1234. -/
theorem C2_witness :
    validate_dna_sequence (.int 1234) =
      .error (.dnaSequenceError "invalid sequence type (int)") :=
  C2_validate_dna_sequence_behaviour.1 (.int 1234) (by decide)

/-- C3: `get_valid_bases "bases_only"` is exactly the base list,
`get_valid_bases "base_complements"` is exactly the four-entry complement
mapping, which maps each valid base to a valid base and is its own
inverse; every other selector fails with the error naming the two legal
selectors. -/
theorem C3_get_valid_bases_spec :
    get_valid_bases "bases_only" = .ok (.bases ['A', 'G', 'C', 'T']) ∧
    get_valid_bases "base_complements" =
      .ok (.complements [('A', 'T'), ('G', 'C'), ('C', 'G'), ('T', 'A')]) ∧
    (∀ m, get_valid_bases "base_complements" = .ok (.complements m) →
      m.length = 4 ∧ m.map (fun p => p.1) = validBaseChars ∧
      ∀ p ∈ m, p.1 ∈ validBaseChars ∧ p.2 ∈ validBaseChars ∧
        dictGet m p.2 = some p.1) ∧
    (∀ sel : String, sel ≠ "bases_only" → sel ≠ "base_complements" →
      get_valid_bases sel = .error (.valueError
        "return_values must be either 'bases_only' or 'base_complements'")) := by
  refine ⟨rfl, rfl, ?_, ?_⟩
  · intro m hm
    rw [base_complements_eq] at hm
    injection hm with hm
    injection hm with hm
    subst hm
    refine ⟨rfl, rfl, ?_⟩
    decide
  · intro sel h1 h2
    unfold get_valid_bases
    rw [if_neg h1, if_neg h2]
    rfl

/-- Witness for C3 at the concrete illegal selector. -/
theorem C3_witness :
    get_valid_bases "Whoops!" = .error (.valueError
      "return_values must be either 'bases_only' or 'base_complements'") :=
  C3_get_valid_bases_spec.2.2.2 "Whoops!" (by decide) (by decide)

/-- C4: applying `get_reverse_complement` twice to a valid sequence
returns the uppercased original. -/
theorem C4_double_complement (s : String) (h : ValidSeq s) :
    ∃ t, get_reverse_complement (.str s) = .ok t ∧
      get_reverse_complement (.str t) = .ok (pyUpperStr s) := by
  refine ⟨revCompSpec s, grc_valid s h, ?_⟩
  rw [grc_valid (revCompSpec s) (validSeq_revCompSpec s h),
    revCompSpec_double s h]

/-- Witness for C4 at the concrete valid input "aGCt". -/
theorem C4_witness :
    ∃ t, get_reverse_complement (.str "aGCt") = .ok t ∧
      get_reverse_complement (.str t) = .ok (pyUpperStr "aGCt") :=
  C4_double_complement "aGCt" (by decide)

/-- C5: the output of `get_reverse_complement` depends only on the input
up to letter case; concretely "aGCt" and "AGCT" both map to "AGCT". -/
theorem C5_case_insensitive :
    (∀ s t : String, ValidSeq s → ValidSeq t → pyUpperStr s = pyUpperStr t →
      get_reverse_complement (.str s) = get_reverse_complement (.str t)) ∧
    get_reverse_complement (.str "aGCt") = .ok "AGCT" ∧
    get_reverse_complement (.str "AGCT") = .ok "AGCT" := by
  refine ⟨?_, by rfl, by rfl⟩
  intro s t hs ht h
  rw [grc_valid s hs, grc_valid t ht, revCompSpec_congr s t h]

/-- Witness for C5 at the concrete pair "aGCt", "AGCT". -/
theorem C5_witness :
    get_reverse_complement (.str "aGCt") =
      get_reverse_complement (.str "AGCT") :=
  C5_case_insensitive.1 "aGCt" "AGCT" (by decide) (by decide) (by decide)

/-- C6: on a valid sequence the output of `get_reverse_complement` has the
input's length and consists solely of uppercase valid bases. -/
theorem C6_length_and_charset (s : String) (h : ValidSeq s) :
    ∃ t, get_reverse_complement (.str s) = .ok t ∧
      t.length = s.length ∧ ∀ c ∈ t.data, c ∈ validBaseChars :=
  ⟨revCompSpec s, grc_valid s h, revCompSpec_length s, revCompSpec_chars s h⟩

/-- Witness for C6 at the concrete valid input "aGCt". -/
theorem C6_witness :
    ∃ t, get_reverse_complement (.str "aGCt") = .ok t ∧
      t.length = String.length "aGCt" ∧ ∀ c ∈ t.data, c ∈ validBaseChars :=
  C6_length_and_charset "aGCt" (by decide)

/-- C7: every failure of `validate_dna_sequence` — type errors and
positional base errors, whose positions refer to the original un-reversed
input — propagates unchanged through `get_reverse_complement`, which then
produces no output. -/
theorem C7_error_propagation (v : PyValue) (e : PyError)
    (h : validate_dna_sequence v = .error e) :
    get_reverse_complement v = .error e :=
  grc_error v e h

/-- Witness for C7 at the concrete invalid input "AGCU". -/
theorem C7_witness :
    get_reverse_complement (.str "AGCU") = .error
      (.dnaSequenceError "invalid base 'U' found at sequence position 4") :=
  C7_error_propagation (.str "AGCU")
    (.dnaSequenceError "invalid base 'U' found at sequence position 4")
    (by rfl)

/-- C8 counterexample: the invalid-selector failure of `get_valid_bases`
is the builtin `ValueError`, and no module-defined (domain) error class is
a common superclass of `ValueError` and `DnaSequenceError`, so the three
failure kinds are not all subtypes of one domain error category. -/
theorem C8_counterexample :
    get_valid_bases "Whoops!" = .error (.valueError
      "return_values must be either 'bases_only' or 'base_complements'") ∧
    errClass (.valueError
      "return_values must be either 'bases_only' or 'base_complements'") =
      .valueError ∧
    ¬ ∃ C : ExcClass, moduleDefined C = true ∧
        isSubclass .valueError C = true ∧
        isSubclass .dnaSequenceError C = true :=
  ⟨by rfl, rfl, by decide⟩

/-- C8 (amended): the sequence-type error and the invalid-base error are
raised as `DnaSequenceError`, a subclass of the module's domain error
class `Error`; the invalid-selector error from `get_valid_bases` is the
builtin `ValueError`, which is not a subtype of `Error` — the only common
ancestor of all three failure kinds is the generic `Exception`. -/
theorem C8_error_taxonomy :
    validate_dna_sequence (.int 1234) =
      .error (.dnaSequenceError "invalid sequence type (int)") ∧
    validate_dna_sequence (.str "2GCT") = .error
      (.dnaSequenceError "invalid base '2' found at sequence position 1") ∧
    get_valid_bases "Whoops!" = .error (.valueError
      "return_values must be either 'bases_only' or 'base_complements'") ∧
    isSubclass (errClass
      (.dnaSequenceError "invalid sequence type (int)")) .error = true ∧
    isSubclass (errClass (.valueError
      "return_values must be either 'bases_only' or 'base_complements'"))
      .error = false ∧
    (∀ C : ExcClass, isSubclass C .exception = true) :=
  ⟨by rfl, by rfl, by rfl, by decide, by decide, by decide⟩

/-- C9: the empty string is a valid DNA sequence — validation succeeds and
its reverse complement is the empty string. -/
theorem C9_empty_string :
    validate_dna_sequence (.str "") = .ok () ∧
    get_reverse_complement (.str "") = .ok "" :=
  ⟨rfl, rfl⟩

/-- C10: calling `get_valid_bases` with no argument uses the default
selector "bases_only" and returns the base list without error. -/
theorem C10_default_selector :
    get_valid_bases = get_valid_bases "bases_only" ∧
    get_valid_bases = .ok (.bases ['A', 'G', 'C', 'T']) :=
  ⟨rfl, rfl⟩
